import Mathlib

/-!
Verification of the arduino-cli package/library manager core against its
specification.  The Go source is shallowly embedded: each function is
translated into a pure Lean function over an explicit environment that
records the outcomes of the filesystem / network effects the Go code
performs (stat results, integrity-check results, per-step failures), and
the observable behaviour (progress-sink events, attempted actions, return
value) is computed from it.
-/

namespace Resources

/-- Result of the `path.Stat()` call in `DownloadResource.Download`:
the file does not exist, the stat succeeded, or the stat failed with an
error that is not "not exist". -/
inductive StatResult
  | notExist
  | ok
  | otherErr
deriving DecidableEq, Repr, Fintype

/-- Opaque handle standing for the `*downloader.Downloader` value returned
by `downloader.DownloadWithConfig`. -/
inductive Downloader
  | handle
deriving DecidableEq, Repr, Fintype

/-- Error returns of `DownloadResource.Download`. -/
inductive DlError
  | archivePathFailed
  | removeCorruptedFailed
  | statFailed
  | downloadStartFailed
deriving DecidableEq, Repr, Fintype

/-- The Go `(*downloader.Downloader, error)` pair returned by `Download`. -/
structure GoReturn where
  downloader : Option Downloader
  error : Option DlError
deriving DecidableEq, Repr, Fintype

/-- Environment for one call of `DownloadResource.Download`: outcomes of
the effectful sub-calls, in the order the Go code can perform them. -/
structure DownloadEnv where
  /-- `r.ArchivePath(downloadDir)` fails (its `MkdirAll` errors). -/
  archivePathErr : Bool
  /-- outcome of `path.Stat()` on the cache path -/
  stat : StatResult
  /-- `r.TestLocalArchiveIntegrity(downloadDir)` returns a non-nil error -/
  integrityErr : Bool
  /-- `ok` value returned by `TestLocalArchiveIntegrity` -/
  integrityOk : Bool
  /-- `path.Remove()` on the corrupted archive fails -/
  removeErr : Bool
  /-- the pair returned by `downloader.DownloadWithConfig(path, URL, config)` -/
  fetchReturn : GoReturn
deriving DecidableEq, Repr, Fintype

/-- Observable outcome of one `Download` call. -/
structure DownloadOutcome where
  /-- the cached archive file was removed (`path.Remove()` ran and succeeded) -/
  removedLocal : Bool
  /-- `downloader.DownloadWithConfig` was invoked (a fetch was initiated) -/
  fetchStarted : Bool
  /-- the `(downloader, error)` pair returned to the caller -/
  ret : GoReturn
deriving DecidableEq, Repr, Fintype

/-- Shallow embedding of `DownloadResource.Download`
(`arduino/resources/helpers.go`).  Control flow mirrors the source:
missing file → plain fetch; existing file → integrity test, on failure
remove the local copy (erroring out if the removal fails) and fetch;
on success return `(nil, nil)`; stat failure → error. -/
def Download (env : DownloadEnv) : DownloadOutcome :=
  if env.archivePathErr then
    ⟨false, false, ⟨none, some .archivePathFailed⟩⟩
  else
    match env.stat with
    | .notExist => ⟨false, true, env.fetchReturn⟩
    | .ok =>
      if env.integrityErr = true ∨ env.integrityOk = false then
        if env.removeErr then
          ⟨false, false, ⟨none, some .removeCorruptedFailed⟩⟩
        else
          ⟨true, true, env.fetchReturn⟩
      else
        ⟨false, false, ⟨none, none⟩⟩
    | .otherErr => ⟨false, false, ⟨none, some .statFailed⟩⟩

end Resources

namespace Resources

/-- C5: for every `DownloadResource` whose cached artifact exists but fails
the local integrity check (or whose integrity check itself errors),
`Download` deletes the local copy and initiates a re-fetch; a corrupt
cached artifact is never returned as if it were cached (it never yields
the `(nil, nil)` "already cached" return). -/
theorem download_corrupt_cache_recovery :
    (∀ env : DownloadEnv, env.archivePathErr = false → env.stat = .ok →
      (env.integrityErr = true ∨ env.integrityOk = false) → env.removeErr = false →
      (Download env).removedLocal = true ∧ (Download env).fetchStarted = true) ∧
    (∀ env : DownloadEnv, env.stat = .ok →
      (env.integrityErr = true ∨ env.integrityOk = false) →
      ¬((Download env).fetchStarted = false ∧ (Download env).ret = ⟨none, none⟩)) := by
  constructor
  · intro env h1 h2 h3 h4
    simp only [Download, h1, h2, h4, if_false, Bool.false_eq_true]
    rw [if_pos h3]
    simp
  · intro env h1 h2
    by_cases ha : env.archivePathErr
    · simp [Download, ha]
    · simp only [Download, ha, h1, if_false, Bool.false_eq_true]
      rw [if_pos h2]
      by_cases hr : env.removeErr
      · simp [hr]
      · simp [hr]

/-- Witness for `download_corrupt_cache_recovery` at a concrete corrupt-cache
environment. -/
theorem download_corrupt_cache_recovery_witness :
    (Download ⟨false, .ok, false, false, false, ⟨some .handle, none⟩⟩).removedLocal = true ∧
    (Download ⟨false, .ok, false, false, false, ⟨some .handle, none⟩⟩).fetchStarted = true ∧
    ¬((Download ⟨false, .ok, true, true, false, ⟨some .handle, none⟩⟩).fetchStarted = false ∧
      (Download ⟨false, .ok, true, true, false, ⟨some .handle, none⟩⟩).ret = ⟨none, none⟩) := by
  refine ⟨?_, ?_, ?_⟩
  · exact (download_corrupt_cache_recovery.1 ⟨false, .ok, false, false, false,
      ⟨some .handle, none⟩⟩ rfl rfl (Or.inr rfl) rfl).1
  · exact (download_corrupt_cache_recovery.1 ⟨false, .ok, false, false, false,
      ⟨some .handle, none⟩⟩ rfl rfl (Or.inr rfl) rfl).2
  · exact download_corrupt_cache_recovery.2 ⟨false, .ok, true, true, false,
      ⟨some .handle, none⟩⟩ rfl (Or.inl rfl)

/-- C6: `Download` is idempotent for intact cached artifacts: whenever the
archive already exists at the computed cache path (stat succeeds) and the
local integrity verification passes, the call performs no network transfer,
does not touch the local copy, and reports the artifact as already cached
by returning `(nil, nil)`. -/
theorem download_cached_noop (env : DownloadEnv)
    (h1 : env.archivePathErr = false) (h2 : env.stat = .ok)
    (h3 : env.integrityErr = false) (h4 : env.integrityOk = true) :
    Download env = ⟨false, false, ⟨none, none⟩⟩ := by
  simp [Download, h1, h2, h3, h4]

/-- Witness for `download_cached_noop` on a concrete intact-cache
environment. -/
theorem download_cached_noop_witness :
    Download ⟨false, .ok, false, true, false, ⟨some .handle, none⟩⟩ =
      ⟨false, false, ⟨none, none⟩⟩ :=
  download_cached_noop ⟨false, .ok, false, true, false, ⟨some .handle, none⟩⟩
    rfl rfl rfl rfl

/-- C10: `Download` signals "already cached and intact" by returning a nil
downloader together with a nil error: for every environment in which the
artifact exists and passes verification, the returned pair is
`(none, none)`, and this is the only way a call that starts no fetch can
end without an error. -/
theorem download_cached_returns_nil_nil :
    (∀ env : DownloadEnv, env.archivePathErr = false → env.stat = .ok →
      env.integrityErr = false → env.integrityOk = true →
      (Download env).ret.downloader = none ∧ (Download env).ret.error = none ∧
      (Download env).fetchStarted = false) ∧
    (∀ env : DownloadEnv, (Download env).fetchStarted = false →
      (Download env).ret.error = none →
      (Download env).ret.downloader = none) := by
  constructor
  · intro env h1 h2 h3 h4
    simp [Download, h1, h2, h3, h4]
  · intro env
    rcases env with ⟨a, s, ie, io, re, fr⟩
    rcases a with _ | _ <;> rcases s with _ | _ | _ <;>
      rcases ie with _ | _ <;> rcases io with _ | _ <;> rcases re with _ | _ <;>
      simp [Download]

/-- Witness for `download_cached_returns_nil_nil` at a concrete intact-cache
environment. -/
theorem download_cached_returns_nil_nil_witness :
    (Download ⟨false, .ok, false, true, false, ⟨some .handle, none⟩⟩).ret.downloader = none ∧
    (Download ⟨false, .ok, false, true, false, ⟨some .handle, none⟩⟩).ret.error = none ∧
    (Download ⟨false, .ok, false, true, true, ⟨some .handle, none⟩⟩).ret.downloader = none := by
  refine ⟨?_, ?_, ?_⟩
  · exact (download_cached_returns_nil_nil.1 ⟨false, .ok, false, true, false,
      ⟨some .handle, none⟩⟩ rfl rfl rfl rfl).1
  · exact (download_cached_returns_nil_nil.1 ⟨false, .ok, false, true, false,
      ⟨some .handle, none⟩⟩ rfl rfl rfl rfl).2.1
  · exact download_cached_returns_nil_nil.2 ⟨false, .ok, false, true, true,
      ⟨some .handle, none⟩⟩ (by decide) (by decide)

/-- A top-level entry of the extracted archive content, as returned by the
`parent.ReadDir()` call in `findPackageRoot`: an identifier plus the
`file.IsDir()` flag. -/
structure FsEntry where
  name : Nat
  isDir : Bool
deriving DecidableEq, Repr

/-- Error returns of `Install` / `findPackageRoot`. -/
inductive InstallError
  | integrityTestFailed
  | integrityCheckFailed
  | tempDirFailed
  | archivePathFailed
  | openFailed
  | extractFailed
  | readRootDirFailed
  | noUniqueRootDir
  | filesNotInSubdirectory
  | mkdirParentFailed
  | renameFailed
deriving DecidableEq, Repr

/-- The accumulator loop of `findPackageRoot`: walk the entries keeping the
first directory seen; a non-directory entry is skipped; a second directory
is an immediate error; no directory at all is an error. -/
def findRootLoop : Option FsEntry → List FsEntry → Except InstallError FsEntry
  | none, [] => .error .filesNotInSubdirectory
  | some r, [] => .ok r
  | acc, f :: fs =>
    if f.isDir = false then
      findRootLoop acc fs
    else
      match acc with
      | none => findRootLoop (some f) fs
      | some _ => .error .noUniqueRootDir

/-- Shallow embedding of `findPackageRoot`
(`arduino/resources/helpers.go`): `ReadDir` may fail, otherwise the unique
top-level directory among the entries is located. -/
def findPackageRoot (readDirErr : Bool) (entries : List FsEntry) :
    Except InstallError FsEntry :=
  if readDirErr then .error .readRootDirFailed else findRootLoop none entries

/-- Environment for one call of `DownloadResource.Install`: outcomes of
the effectful sub-calls, in source order. -/
structure InstallEnv where
  /-- `TestLocalArchiveIntegrity` returns a non-nil error -/
  integrityErr : Bool
  /-- `ok` value of `TestLocalArchiveIntegrity` -/
  integrityOk : Bool
  /-- `tempPath.MkdirAll()` fails -/
  mkTempRootErr : Bool
  /-- `tempPath.MkTempDir("package-")` fails -/
  mkTempDirErr : Bool
  /-- `release.ArchivePath(downloadDir)` fails -/
  archivePathErr : Bool
  /-- `os.Open(archivePath)` fails -/
  openErr : Bool
  /-- `extract.Archive(...)` fails -/
  extractErr : Bool
  /-- the `ReadDir` inside `findPackageRoot` fails -/
  readDirErr : Bool
  /-- top-level entries of the extracted content -/
  entries : List FsEntry
  /-- `destDirParent.MkdirAll()` fails -/
  mkdirParentErr : Bool
  /-- `destDir.IsDir()`: a previous version exists at the destination -/
  destIsDir : Bool
  /-- `root.Rename(destDir)` fails -/
  renameErr : Bool
deriving DecidableEq, Repr

/-- Observable outcome of one `Install` call on the destination
directory. -/
structure InstallOutcome where
  /-- the pre-existing destination directory was removed (`destDir.RemoveAll()`) -/
  destRemoved : Bool
  /-- the extracted root was renamed onto the destination path -/
  renamed : Bool
  /-- the error returned, `none` on success -/
  result : Option InstallError
deriving DecidableEq, Repr

/-- Shallow embedding of `DownloadResource.Install`
(`arduino/resources/helpers.go`): integrity re-check, temp-dir creation,
archive opening, extraction, root lookup via `findPackageRoot`, parent
creation, removal of a pre-existing destination, and the final rename. -/
def Install (env : InstallEnv) : InstallOutcome :=
  if env.integrityErr then ⟨false, false, some .integrityTestFailed⟩
  else if env.integrityOk = false then ⟨false, false, some .integrityCheckFailed⟩
  else if env.mkTempRootErr then ⟨false, false, some .tempDirFailed⟩
  else if env.mkTempDirErr then ⟨false, false, some .tempDirFailed⟩
  else if env.archivePathErr then ⟨false, false, some .archivePathFailed⟩
  else if env.openErr then ⟨false, false, some .openFailed⟩
  else if env.extractErr then ⟨false, false, some .extractFailed⟩
  else
    match findPackageRoot env.readDirErr env.entries with
    | .error e => ⟨false, false, some e⟩
    | .ok _ =>
      if env.mkdirParentErr then ⟨false, false, some .mkdirParentFailed⟩
      else if env.renameErr then ⟨env.destIsDir, false, some .renameFailed⟩
      else ⟨env.destIsDir, true, none⟩

lemma countP_isDir_cons_false {f : FsEntry} (fs : List FsEntry)
    (hf : f.isDir = false) :
    (f :: fs).countP (fun g => g.isDir) = fs.countP (fun g => g.isDir) := by
  simp [List.countP_cons, hf]

lemma countP_isDir_cons_true {f : FsEntry} (fs : List FsEntry)
    (hf : f.isDir = true) :
    (f :: fs).countP (fun g => g.isDir) = fs.countP (fun g => g.isDir) + 1 := by
  simp [List.countP_cons, hf]

lemma findRootLoop_some (r : FsEntry) (l : List FsEntry) :
    findRootLoop (some r) l =
      if l.countP (fun g => g.isDir) = 0 then .ok r
      else .error .noUniqueRootDir := by
  induction l with
  | nil => rfl
  | cons f fs ih =>
    rcases hf : f.isDir with _ | _
    · rw [countP_isDir_cons_false fs hf]
      simpa [findRootLoop, hf] using ih
    · rw [countP_isDir_cons_true fs hf]
      simp [findRootLoop, hf]

lemma findRootLoop_none_zero (l : List FsEntry)
    (h : l.countP (fun g => g.isDir) = 0) :
    findRootLoop none l = .error .filesNotInSubdirectory := by
  induction l with
  | nil => rfl
  | cons f fs ih =>
    rcases hf : f.isDir with _ | _
    · rw [countP_isDir_cons_false fs hf] at h
      simpa [findRootLoop, hf] using ih h
    · rw [countP_isDir_cons_true fs hf] at h
      omega

lemma findRootLoop_none_many (l : List FsEntry)
    (h : 2 ≤ l.countP (fun g => g.isDir)) :
    findRootLoop none l = .error .noUniqueRootDir := by
  induction l with
  | nil => simp [List.countP_nil] at h
  | cons f fs ih =>
    rcases hf : f.isDir with _ | _
    · rw [countP_isDir_cons_false fs hf] at h
      simpa [findRootLoop, hf] using ih h
    · rw [countP_isDir_cons_true fs hf] at h
      have hfs : fs.countP (fun g => g.isDir) ≠ 0 := by omega
      simp [findRootLoop, hf, findRootLoop_some, hfs]

lemma findRootLoop_none_ok (l : List FsEntry) (r : FsEntry)
    (h : findRootLoop none l = .ok r) :
    l.countP (fun g => g.isDir) = 1 := by
  by_contra hc
  rcases Nat.lt_or_ge (l.countP (fun g => g.isDir)) 2 with h2 | h2
  · have h0 : l.countP (fun g => g.isDir) = 0 := by omega
    rw [findRootLoop_none_zero l h0] at h
    exact Except.noConfusion h
  · rw [findRootLoop_none_many l h2] at h
    exact Except.noConfusion h

/-- C3 counterexample: an extraction producing two top-level entries — one
directory and one plain file — does not make `Install` fail: the plain
file is ignored, the single directory is taken as the package root, and
the install succeeds (renaming onto the destination), contradicting the
claim that more than one top-level entry yields an archive-layout
failure with the destination untouched. -/
theorem install_two_entries_succeeds :
    (Install ⟨false, true, false, false, false, false, false, false,
        [⟨0, true⟩, ⟨1, false⟩], false, false, false⟩).result = none ∧
    (Install ⟨false, true, false, false, false, false, false, false,
        [⟨0, true⟩, ⟨1, false⟩], false, false, false⟩).renamed = true ∧
    (InstallEnv.mk false true false false false false false false
        [⟨0, true⟩, ⟨1, false⟩] false false false).entries.length = 2 := by
  refine ⟨?_, ?_, ?_⟩ <;> rfl

/-- C3 amended: `Install` succeeds only when the extracted content
contains exactly one top-level directory; non-directory top-level entries
are ignored.  If extraction yields zero top-level directories or more
than one top-level directory, `Install` fails with an archive-layout
error and the destination directory is untouched (not removed, nothing
renamed onto it). -/
theorem install_single_root_enforcement :
    (∀ env : InstallEnv, env.integrityErr = false → env.integrityOk = true →
      env.mkTempRootErr = false → env.mkTempDirErr = false →
      env.archivePathErr = false → env.openErr = false →
      env.extractErr = false → env.readDirErr = false →
      env.entries.countP (fun g => g.isDir) ≠ 1 →
      (Install env = ⟨false, false, some .filesNotInSubdirectory⟩ ∨
       Install env = ⟨false, false, some .noUniqueRootDir⟩)) ∧
    (∀ env : InstallEnv, (Install env).result = none →
      env.entries.countP (fun g => g.isDir) = 1) := by
  constructor
  · intro env h1 h2 h3 h4 h5 h6 h7 h8 hcount
    rcases Nat.lt_or_ge (env.entries.countP (fun g => g.isDir)) 2 with hlt | hge
    · have h0 : env.entries.countP (fun g => g.isDir) = 0 := by omega
      left
      simp [Install, h1, h2, h3, h4, h5, h6, h7, findPackageRoot, h8,
        findRootLoop_none_zero env.entries h0]
    · right
      simp [Install, h1, h2, h3, h4, h5, h6, h7, findPackageRoot, h8,
        findRootLoop_none_many env.entries hge]
  · intro env h
    rcases henv : env.integrityErr with _ | _ <;>
      [skip; simp [Install, henv] at h]
    rcases hok : env.integrityOk with _ | _ <;>
      [simp [Install, henv, hok] at h; skip]
    rcases h3 : env.mkTempRootErr with _ | _ <;>
      [skip; simp [Install, henv, hok, h3] at h]
    rcases h4 : env.mkTempDirErr with _ | _ <;>
      [skip; simp [Install, henv, hok, h3, h4] at h]
    rcases h5 : env.archivePathErr with _ | _ <;>
      [skip; simp [Install, henv, hok, h3, h4, h5] at h]
    rcases h6 : env.openErr with _ | _ <;>
      [skip; simp [Install, henv, hok, h3, h4, h5, h6] at h]
    rcases h7 : env.extractErr with _ | _ <;>
      [skip; simp [Install, henv, hok, h3, h4, h5, h6, h7] at h]
    rcases h8 : env.readDirErr with _ | _ <;>
      [skip; simp [Install, henv, hok, h3, h4, h5, h6, h7, findPackageRoot, h8] at h]
    rcases hroot : findPackageRoot env.readDirErr env.entries with e | r
    · simp [Install, henv, hok, h3, h4, h5, h6, h7, hroot] at h
    · rw [findPackageRoot, h8, if_neg (by simp)] at hroot
      exact findRootLoop_none_ok env.entries r hroot

/-- Witness for `install_single_root_enforcement` at concrete inputs: a
two-directory extraction fails with a layout error, and a successful
install has exactly one top-level directory. -/
theorem install_single_root_enforcement_witness :
    (Install ⟨false, true, false, false, false, false, false, false,
        [⟨0, true⟩, ⟨1, true⟩], false, false, false⟩ =
      ⟨false, false, some .filesNotInSubdirectory⟩ ∨
     Install ⟨false, true, false, false, false, false, false, false,
        [⟨0, true⟩, ⟨1, true⟩], false, false, false⟩ =
      ⟨false, false, some .noUniqueRootDir⟩) ∧
    (InstallEnv.mk false true false false false false false false
        [⟨7, true⟩] false true false).entries.countP (fun g => g.isDir) = 1 := by
  constructor
  · exact install_single_root_enforcement.1
      ⟨false, true, false, false, false, false, false, false,
        [⟨0, true⟩, ⟨1, true⟩], false, false, false⟩
      rfl rfl rfl rfl rfl rfl rfl rfl (by decide)
  · exact install_single_root_enforcement.2
      ⟨false, true, false, false, false, false, false, false,
        [⟨7, true⟩], false, true, false⟩ (by decide)

end Resources

namespace Instances

/-- Errors returned by the instance-registry operations
(`commands/instances.go`). -/
inductive RegError
  | invalidInstance
deriving DecidableEq, Repr

/-- The process-wide registry state: the key set of the
`instances` map (`map[int32]*CoreInstance`) and the `instancesCount`
counter.  Only ids matter for the registry contract, so a session is
represented by its id. -/
structure Registry where
  instances : List Int
  count : Int
deriving DecidableEq, Repr

/-- Initial state: `instances` empty, `instancesCount = 1`. -/
def iniRegistry : Registry := ⟨[], 1⟩

/-- Two's-complement wraparound of Go's `int32` increment. -/
def wrap32 (n : Int) : Int := (n + 2 ^ 31) % 2 ^ 32 - 2 ^ 31

/-- Go-map insert on the key set: adding a key that is already present
leaves the set unchanged. -/
def insertId (l : List Int) (i : Int) : List Int :=
  if i ∈ l then l else i :: l

/-- Go-map delete on the key set. -/
def removeId (l : List Int) (i : Int) : List Int :=
  l.filter (fun x => x ≠ i)

/-- Shallow embedding of `Create` (`commands/instances.go`), restricted to
its registry effect: on success the new session is stored under id
`instancesCount` and the counter is incremented (with `int32`
wraparound); the returned id is the stored one.  `ok = false` stands for
the early error returns (missing configuration, directory-provisioning
failure), which leave the registry untouched. -/
def Create (s : Registry) (ok : Bool) : Registry × Option Int :=
  if ok then
    (⟨insertId s.instances s.count, wrap32 (s.count + 1)⟩, some s.count)
  else
    (s, none)

/-- Shallow embedding of `Destroy` (`commands/instances.go`): an unknown
id is rejected with `InvalidInstance`; otherwise the session is deleted
from the map. -/
def Destroy (s : Registry) (id : Int) : Except RegError Registry :=
  if id ∈ s.instances then .ok ⟨removeId s.instances id, s.count⟩
  else .error .invalidInstance

/-- The id-validation step shared by every per-instance operation: `Init`
returns `InvalidInstanceError` when `instances[req.Instance.Id]` is nil;
`Outdated`, `Upgrade`, `UpdateLibrariesIndex` and `UpdateIndex` do the
same through `GetLibraryManager` / `GetPackageManager` / map lookup
returning nil. -/
def lookupInstance (s : Registry) (id : Int) : Except RegError Unit :=
  if id ∈ s.instances then .ok () else .error .invalidInstance

/-- A registry-affecting step of a trace: a `Create` call (successful or
failing its configuration/directory checks) or a `Destroy` call. -/
inductive RegOp
  | create (ok : Bool)
  | destroy (id : Int)
deriving DecidableEq, Repr

/-- One trace step: `Create` mutates as above; `Destroy` deletes the id
when present and is a rejected no-op otherwise. -/
def stepReg (s : Registry) : RegOp → Registry
  | .create ok => (Create s ok).1
  | .destroy id =>
    match Destroy s id with
    | .ok s' => s'
    | .error _ => s

/-- Run a trace of registry operations. -/
def runReg (s : Registry) : List RegOp → Registry
  | [] => s
  | op :: t => runReg (stepReg s op) t

/-- The ids handed out by the successful `Create` calls of a trace. -/
def returnedIds (s : Registry) : List RegOp → List Int
  | [] => []
  | .create true :: t => s.count :: returnedIds (stepReg s (.create true)) t
  | op :: t => returnedIds (stepReg s op) t

lemma mem_insertId {l : List Int} {i j : Int} (h : j ∈ insertId l i) :
    j = i ∨ j ∈ l := by
  unfold insertId at h
  by_cases hi : i ∈ l
  · rw [if_pos hi] at h
    exact Or.inr h
  · rw [if_neg hi] at h
    rcases List.mem_cons.mp h with h' | h'
    · exact Or.inl h'
    · exact Or.inr h'

lemma not_mem_removeId (l : List Int) (i : Int) : i ∉ removeId l i := by
  intro h
  have := List.of_mem_filter h
  simp at this

lemma mem_removeId {l : List Int} {i j : Int} (h : j ∈ removeId l i) :
    j ∈ l :=
  List.mem_of_mem_filter h

/-- Absent ids stay absent along any trace that never hands the id out
again. -/
lemma not_mem_runReg (t : List RegOp) (s : Registry) (id : Int)
    (hs : id ∉ s.instances) (hret : id ∉ returnedIds s t) :
    id ∉ (runReg s t).instances := by
  induction t generalizing s with
  | nil => exact hs
  | cons op t ih =>
    rcases op with ok | j
    · rcases ok with _ | _
      · exact ih (stepReg s (.create false)) hs (by simpa [returnedIds] using hret)
      · have hne : id ≠ s.count := by
          intro he
          exact hret (by simp [returnedIds, he])
        have hs' : id ∉ (stepReg s (.create true)).instances := by
          simp only [stepReg, Create, if_pos rfl]
          intro hmem
          rcases mem_insertId hmem with h' | h'
          · exact hne h'
          · exact hs h'
        have hret' : ¬id = s.count ∧
            id ∉ returnedIds (stepReg s (.create true)) t := by
          simpa [returnedIds] using hret
        exact ih (stepReg s (.create true)) hs' hret'.2
    · have hs' : id ∉ (stepReg s (.destroy j)).instances := by
        simp only [stepReg, Destroy]
        by_cases hj : j ∈ s.instances
        · rw [if_pos hj]
          intro hmem
          exact hs (mem_removeId hmem)
        · rw [if_neg hj]
          exact hs
      exact ih (stepReg s (.destroy j)) hs' (by simpa [returnedIds] using hret)

/-- C7: the registry rejects unknown ids rather than silently no-opping.
After a successful `Destroy` of an id, every subsequent operation
referencing that id — along any further trace of `Create`/`Destroy`
calls in which no successful `Create` hands the id out again — fails
with `InvalidInstance` (the per-instance lookup, and `Destroy` itself);
and an id never returned by any successful `Create` since process start
fails every operation the same way. -/
theorem destroyed_and_unknown_ids_rejected :
    (∀ s s' : Registry, ∀ id : Int, Destroy s id = .ok s' →
      ∀ t : List RegOp, id ∉ returnedIds s' t →
        lookupInstance (runReg s' t) id = .error .invalidInstance ∧
        Destroy (runReg s' t) id = .error .invalidInstance) ∧
    (∀ t : List RegOp, ∀ id : Int, id ∉ returnedIds iniRegistry t →
      lookupInstance (runReg iniRegistry t) id = .error .invalidInstance ∧
      Destroy (runReg iniRegistry t) id = .error .invalidInstance) := by
  have key : ∀ s : Registry, ∀ id : Int, id ∉ s.instances →
      ∀ t : List RegOp, id ∉ returnedIds s t →
        lookupInstance (runReg s t) id = .error .invalidInstance ∧
        Destroy (runReg s t) id = .error .invalidInstance := by
    intro s id hs t hret
    have habs := not_mem_runReg t s id hs hret
    exact ⟨by simp [lookupInstance, habs], by simp [Destroy, habs]⟩
  constructor
  · intro s s' id hdes t hret
    have hs' : id ∉ s'.instances := by
      unfold Destroy at hdes
      by_cases hid : id ∈ s.instances
      · rw [if_pos hid] at hdes
        injection hdes with h
        rw [← h]
        exact not_mem_removeId s.instances id
      · rw [if_neg hid] at hdes
        exact Except.noConfusion hdes
    exact key s' id hs' t hret
  · intro t id hret
    exact key iniRegistry id (by simp [iniRegistry]) t hret

/-- Witness for `destroyed_and_unknown_ids_rejected`: destroying id 1 in a
registry holding it, then running a further create and a stray destroy,
leaves every operation on id 1 rejected; and id 7, never returned by
`Create`, is likewise rejected after two creates from process start. -/
theorem destroyed_and_unknown_ids_rejected_witness :
    lookupInstance (runReg ⟨[], 2⟩ [.create true, .destroy 3]) 1 =
      .error .invalidInstance ∧
    Destroy (runReg ⟨[], 2⟩ [.create true, .destroy 3]) 1 =
      .error .invalidInstance ∧
    lookupInstance (runReg iniRegistry [.create true, .create true]) 7 =
      .error .invalidInstance := by
  refine ⟨?_, ?_, ?_⟩
  · exact (destroyed_and_unknown_ids_rejected.1 ⟨[1], 2⟩ ⟨[], 2⟩ 1
      rfl [.create true, .destroy 3] (by decide)).1
  · exact (destroyed_and_unknown_ids_rejected.1 ⟨[1], 2⟩ ⟨[], 2⟩ 1
      rfl [.create true, .destroy 3] (by decide)).2
  · exact (destroyed_and_unknown_ids_rejected.2 [.create true, .create true] 7
      (by decide)).1

end Instances

namespace InitModel

/-- An in-memory dependency-graph: an association list from entry key
(package/platform/tool identity) to entry value, with Go-map semantics
(at most one binding per key). -/
def Graph := List (Nat × Nat)

/-- Lookup of a graph entry by key (first binding wins; bindings are kept
unique by `insertEntry`). -/
def lookupG : Graph → Nat → Option Nat
  | [], _ => none
  | (k', v) :: g, k => if k' = k then some v else lookupG g k

/-- The keys bound in a graph. -/
def keysOf (g : Graph) : List Nat := g.map Prod.fst

/-- Modelled from the spec: the index/hardware loaders
(`LoadPackageIndexFromFile`, `LoadPackageIndex`, `LoadHardware` of the
package manager, which are not part of the analysed sources) merge
entries into the existing graph keyed by name — a later load of an
already-present key replaces that entry, a new key is appended. -/
def insertEntry : Graph → Nat → Nat → Graph
  | [], k, v => [(k, v)]
  | (k', v') :: g, k, v =>
    if k' = k then (k, v) :: g else (k', v') :: insertEntry g k v

/-- Merge a list of loaded entries into a graph, left to right. -/
def insertList (g : Graph) (es : List (Nat × Nat)) : Graph :=
  es.foldl (fun g' e => insertEntry g' e.1 e.2) g

/-- Modelled from the spec: `PackageManager.Clear` (not part of the
analysed sources) resets the in-memory dependency graph to empty; `Init`
calls it before reloading so that stale entries never survive. -/
def clearGraph (_g : Graph) : Graph := []

/-- The value of `lastVal es k`: the binding a left-to-right merge of
`es` leaves for key `k` (the last pair of `es` with that key). -/
def lastVal : List (Nat × Nat) → Nat → Option Nat
  | [], _ => none
  | (k', v) :: es, k =>
    match lastVal es k with
    | some w => some w
    | none => if k' = k then some v else none

/-- Left-biased choice on `Option`. -/
def orD : Option Nat → Option Nat → Option Nat
  | some x, _ => some x
  | none, b => b

/-- One configured index URL: whether `utils.URLParse` accepts it,
whether the package-index load succeeds, and the entries the index
contributes when it loads.  A malformed or unloadable URL is reported
and skipped, contributing nothing. -/
structure UrlSpec where
  parseOk : Bool
  loadOk : Bool
  entries : List (Nat × Nat)
deriving DecidableEq, Repr

/-- The entries a configured URL contributes to the graph. -/
def urlEntries (u : UrlSpec) : List (Nat × Nat) :=
  if u.parseOk && u.loadOk then u.entries else []

/-- A built-in-package tool as seen by the `Init` tool-installation loop:
whether `LatestRelease()` is non-nil, the identity of that release,
whether its download+install succeeds when attempted, and the graph
entry value a later `LoadHardware` discovers for it once installed. -/
structure BuiltinTool where
  hasLatest : Bool
  key : Nat
  installOk : Bool
  entry : Nat
deriving DecidableEq, Repr

/-- On-disk state visible to `Init`: the entries `LoadHardware` discovers
(installed platforms, tools, bundled tools) and the keys of the tool
releases present on disk (the `IsInstalled` predicate, derived from the
filesystem). -/
structure DiskState where
  hwEntries : List (Nat × Nat)
  installedTools : List Nat
deriving DecidableEq, Repr

/-- Modelled from the spec: the built-in-tool installation loop of `Init`
(`installToolIfMissing` calls into the package manager, which is not
part of the analysed sources).  A tool with no latest release is
reported and skipped; an already-installed tool is left alone; a failed
download/install is reported and skipped; a successful install writes
the tool to disk and makes it discoverable, and sets the
`toolsHaveBeenInstalled` flag. -/
def installBuiltins : DiskState → List BuiltinTool → DiskState × Bool
  | disk, [] => (disk, false)
  | disk, b :: bs =>
    if b.hasLatest = false then installBuiltins disk bs
    else if b.key ∈ disk.installedTools then installBuiltins disk bs
    else if b.installOk = false then installBuiltins disk bs
    else
      let disk' : DiskState :=
        ⟨disk.hwEntries ++ [(b.key, b.entry)], disk.installedTools ++ [b.key]⟩
      ((installBuiltins disk' bs).1, true)

/-- Configuration seen by `Init`: the index URLs (built-in default plus
additional ones) and the built-in tools. -/
structure InitEnv where
  urls : List UrlSpec
  builtins : List BuiltinTool
deriving DecidableEq, Repr

/-- Shallow embedding of the dependency-graph effect of `Init`
(`commands/instances.go`): clear the previous in-memory graph, merge the
package indexes of every loadable configured URL, load installed
hardware from disk, install missing built-in tools, and reload hardware
when at least one tool was newly installed.  Returns the resulting graph
and the on-disk state the call leaves behind. -/
def Init (env : InitEnv) (disk : DiskState) (prev : Graph) : Graph × DiskState :=
  let g0 := clearGraph prev
  let g1 := insertList g0 (env.urls.map urlEntries).flatten
  let g2 := insertList g1 disk.hwEntries
  let res := installBuiltins disk env.builtins
  let g3 := if res.2 then insertList g2 res.1.hwEntries else g2
  (g3, res.1)

lemma lookupG_insertEntry (g : Graph) (k v k' : Nat) :
    lookupG (insertEntry g k v) k' =
      if k = k' then some v else lookupG g k' := by
  induction g with
  | nil => simp [insertEntry, lookupG]
  | cons p g ih =>
    rcases p with ⟨pk, pv⟩
    by_cases hpk : pk = k
    · subst hpk
      simp only [insertEntry, if_pos rfl]
      by_cases hk' : pk = k'
      · subst hk'
        simp [lookupG]
      · simp [lookupG, hk']
    · simp only [insertEntry, if_neg hpk]
      by_cases hk' : pk = k'
      · subst hk'
        have : ¬k = pk := fun h => hpk h.symm
        simp [lookupG, this]
      · simp [lookupG, hk', ih]

lemma lookupG_insertList (es : List (Nat × Nat)) (g : Graph) (k : Nat) :
    lookupG (insertList g es) k = orD (lastVal es k) (lookupG g k) := by
  induction es generalizing g with
  | nil => simp [insertList, lastVal, orD]
  | cons e es ih =>
    rcases e with ⟨ek, ev⟩
    show lookupG (insertList (insertEntry g ek ev) es) k = _
    rw [ih]
    rcases hlast : lastVal es k with _ | w
    · simp only [orD, lastVal, hlast]
      rw [lookupG_insertEntry]
      by_cases hek : ek = k
      · simp [hek, orD]
      · simp [hek, orD]
    · simp [orD, lastVal, hlast]

lemma lastVal_append (a b : List (Nat × Nat)) (k : Nat) :
    lastVal (a ++ b) k = orD (lastVal b k) (lastVal a k) := by
  induction a with
  | nil =>
    simp only [List.nil_append, lastVal]
    rcases lastVal b k with _ | w <;> rfl
  | cons p a ih =>
    rcases p with ⟨pk, pv⟩
    show lastVal ((pk, pv) :: (a ++ b)) k = _
    simp only [lastVal, ih]
    rcases lastVal b k with _ | w
    · rcases lastVal a k with _ | w' <;> simp [orD]
    · simp [orD]

lemma keysOf_insertEntry_subset (g : Graph) (k v : Nat) {j : Nat}
    (h : j ∈ keysOf (insertEntry g k v)) : j = k ∨ j ∈ keysOf g := by
  induction g with
  | nil =>
    simp [insertEntry, keysOf] at h
    exact Or.inl h
  | cons p g ih =>
    rcases p with ⟨pk, pv⟩
    by_cases hpk : pk = k
    · subst hpk
      simp only [insertEntry, if_pos rfl, keysOf, List.map_cons] at h
      rcases List.mem_cons.mp h with h' | h'
      · exact Or.inl h'
      · exact Or.inr (List.mem_cons_of_mem _ h')
    · simp only [insertEntry, if_neg hpk, keysOf, List.map_cons] at h
      rcases List.mem_cons.mp h with h' | h'
      · subst h'
        exact Or.inr (by simp [keysOf])
      · rcases ih h' with h'' | h''
        · exact Or.inl h''
        · exact Or.inr (by simp [keysOf] at h'' ⊢; exact Or.inr h'')

lemma nodup_keysOf_insertEntry (g : Graph) (k v : Nat)
    (h : (keysOf g).Nodup) : (keysOf (insertEntry g k v)).Nodup := by
  induction g with
  | nil => simp [insertEntry, keysOf]
  | cons p g ih =>
    rcases p with ⟨pk, pv⟩
    simp only [keysOf, List.map_cons, List.nodup_cons] at h
    by_cases hpk : pk = k
    · subst hpk
      have hins : insertEntry ((pk, pv) :: g) pk v = (pk, v) :: g := by
        simp [insertEntry]
      rw [hins]
      simpa [keysOf, List.nodup_cons] using h
    · simp only [insertEntry, if_neg hpk, keysOf, List.map_cons,
      List.nodup_cons]
      refine ⟨?_, ih h.2⟩
      intro hmem
      rcases keysOf_insertEntry_subset g k v hmem with h' | h'
      · exact hpk h'
      · exact h.1 h'

lemma nodup_keysOf_insertList (es : List (Nat × Nat)) (g : Graph)
    (h : (keysOf g).Nodup) : (keysOf (insertList g es)).Nodup := by
  induction es generalizing g with
  | nil => exact h
  | cons e es ih =>
    exact ih (insertEntry g e.1 e.2) (nodup_keysOf_insertEntry g e.1 e.2 h)

lemma installBuiltins_hwEntries (bs : List BuiltinTool) (disk : DiskState) :
    ∃ ex, (installBuiltins disk bs).1.hwEntries = disk.hwEntries ++ ex := by
  induction bs generalizing disk with
  | nil => exact ⟨[], by simp [installBuiltins]⟩
  | cons b bs ih =>
    rcases hb1 : b.hasLatest with _ | _
    · simpa [installBuiltins, hb1] using ih disk
    · by_cases h2 : b.key ∈ disk.installedTools
      · simpa [installBuiltins, hb1, h2] using ih disk
      · rcases hb3 : b.installOk with _ | _
        · simpa [installBuiltins, hb1, h2, hb3] using ih disk
        · rcases ih ⟨disk.hwEntries ++ [(b.key, b.entry)],
            disk.installedTools ++ [b.key]⟩ with ⟨ex, hex⟩
          refine ⟨(b.key, b.entry) :: ex, ?_⟩
          simp only [installBuiltins, hb1, h2, hb3]
          simpa [List.append_assoc] using hex

lemma installBuiltins_tools_mono (bs : List BuiltinTool) (disk : DiskState)
    {j : Nat} (h : j ∈ disk.installedTools) :
    j ∈ (installBuiltins disk bs).1.installedTools := by
  induction bs generalizing disk with
  | nil => simpa [installBuiltins] using h
  | cons b bs ih =>
    by_cases h1 : b.hasLatest = false
    · simpa [installBuiltins, h1] using ih disk h
    · by_cases h2 : b.key ∈ disk.installedTools
      · simpa [installBuiltins, h1, h2] using ih disk h
      · by_cases h3 : b.installOk = false
        · simpa [installBuiltins, h1, h2, h3] using ih disk h
        · have := ih ⟨disk.hwEntries ++ [(b.key, b.entry)],
            disk.installedTools ++ [b.key]⟩ (by simpa using Or.inl h)
          simp only [installBuiltins]
          rw [if_neg (by simp [h1]), if_neg h2, if_neg (by simp [h3])]
          exact this

lemma installBuiltins_installs (bs : List BuiltinTool) (disk : DiskState)
    {b : BuiltinTool} (hb : b ∈ bs) (h1 : b.hasLatest = true)
    (h2 : b.installOk = true) :
    b.key ∈ (installBuiltins disk bs).1.installedTools := by
  induction bs generalizing disk with
  | nil => exact absurd hb (List.not_mem_nil b)
  | cons c bs ih =>
    rcases List.mem_cons.mp hb with hb' | hb'
    · subst hb'
      by_cases hk : b.key ∈ disk.installedTools
      · simp only [installBuiltins]
        rw [if_neg (by simp [h1]), if_pos hk]
        exact installBuiltins_tools_mono bs disk hk
      · simp only [installBuiltins]
        rw [if_neg (by simp [h1]), if_neg hk, if_neg (by simp [h2])]
        exact installBuiltins_tools_mono bs _ (by simp)
    · by_cases hc1 : c.hasLatest = false
      · simp only [installBuiltins, hc1, if_pos rfl]
        exact ih disk hb'
      · by_cases hc2 : c.key ∈ disk.installedTools
        · simp only [installBuiltins]
          rw [if_neg hc1, if_pos hc2]
          exact ih disk hb'
        · by_cases hc3 : c.installOk = false
          · simp only [installBuiltins]
            rw [if_neg hc1, if_neg hc2, if_pos hc3]
            exact ih disk hb'
          · simp only [installBuiltins]
            rw [if_neg hc1, if_neg hc2, if_neg hc3]
            exact ih _ hb'

lemma installBuiltins_all_skipped (bs : List BuiltinTool) (disk : DiskState)
    (h : ∀ b ∈ bs, b.hasLatest = false ∨ b.key ∈ disk.installedTools ∨
      b.installOk = false) :
    installBuiltins disk bs = (disk, false) := by
  induction bs with
  | nil => rfl
  | cons b bs ih =>
    have hrest := ih fun c hc => h c (List.mem_cons_of_mem b hc)
    rcases hb1 : b.hasLatest with _ | _
    · simp [installBuiltins, hb1, hrest]
    · by_cases h2 : b.key ∈ disk.installedTools
      · simp [installBuiltins, hb1, h2, hrest]
      · rcases hb3 : b.installOk with _ | _
        · simp [installBuiltins, hb1, h2, hb3, hrest]
        · exfalso
          rcases h b (List.mem_cons_self b bs) with h' | h' | h'
          · rw [hb1] at h'
            exact Bool.noConfusion h'
          · exact h2 h'
          · rw [hb3] at h'
            exact Bool.noConfusion h'

lemma installBuiltins_no_change (bs : List BuiltinTool) (disk : DiskState)
    (h : (installBuiltins disk bs).2 = false) :
    (installBuiltins disk bs).1 = disk := by
  induction bs generalizing disk with
  | nil => rfl
  | cons b bs ih =>
    rcases hb1 : b.hasLatest with _ | _
    · simp only [installBuiltins, hb1, if_pos rfl] at h ⊢
      exact ih disk h
    · by_cases h2 : b.key ∈ disk.installedTools
      · simp [installBuiltins, hb1, h2] at h ⊢
        exact ih disk h
      · rcases hb3 : b.installOk with _ | _
        · simp [installBuiltins, hb1, h2, hb3] at h ⊢
          exact ih disk h
        · simp [installBuiltins, hb1, h2, hb3] at h

lemma lookupG_reload (base : Graph) (hw ex : List (Nat × Nat)) (k : Nat) :
    lookupG (insertList base (hw ++ ex)) k =
      lookupG (insertList (insertList base hw) (hw ++ ex)) k := by
  rw [lookupG_insertList, lookupG_insertList, lookupG_insertList, lastVal_append]
  rcases lastVal hw k with _ | w
  · rcases lastVal ex k with _ | u <;> rfl
  · rcases lastVal ex k with _ | u <;> rfl

/-- C4: `Init` is idempotent with respect to previously loaded state: each
call clears the instance's in-memory dependency graph before reloading,
so a second `Init` with no on-disk or index changes between the calls
(the second call starts from the disk state the first one left) yields
the same dependency-graph contents, the graph never holds duplicate
entries for one key, and the result is independent of whatever graph was
previously in memory — stale entries from platforms uninstalled since
the previous `Init` cannot resurface. -/
theorem Init_idempotent (env : InitEnv) (disk : DiskState) (prev prev' : Graph) :
    (∀ k, lookupG (Init env (Init env disk prev).2 (Init env disk prev).1).1 k =
      lookupG (Init env disk prev).1 k) ∧
    (Init env (Init env disk prev).2 (Init env disk prev).1).2 =
      (Init env disk prev).2 ∧
    (keysOf (Init env disk prev).1).Nodup ∧
    Init env disk prev' = Init env disk prev := by
  rcases hib : installBuiltins disk env.builtins with ⟨d1, ch⟩
  have hskip : ∀ b ∈ env.builtins, b.hasLatest = false ∨
      b.key ∈ d1.installedTools ∨ b.installOk = false := by
    intro b hb
    rcases hb1 : b.hasLatest with _ | _
    · exact Or.inl rfl
    · rcases hb3 : b.installOk with _ | _
      · exact Or.inr (Or.inr rfl)
      · have hmem := installBuiltins_installs env.builtins disk hb hb1 hb3
        rw [hib] at hmem
        exact Or.inr (Or.inl hmem)
  have h2nd : installBuiltins d1 env.builtins = (d1, false) :=
    installBuiltins_all_skipped env.builtins d1 hskip
  refine ⟨?_, ?_, ?_, rfl⟩
  · intro k
    rcases ch with _ | _
    · have hd : d1 = disk := by
        have := installBuiltins_no_change env.builtins disk (by rw [hib])
        rw [hib] at this
        exact this
      subst hd
      simp [Init, clearGraph, hib, h2nd]
    · have hg1 : (Init env disk prev).1 =
          insertList (insertList (insertList []
            (env.urls.map urlEntries).flatten) disk.hwEntries) d1.hwEntries := by
        simp [Init, clearGraph, hib]
      have hg2 : (Init env disk prev).2 = d1 := by
        simp [Init, hib]
      rw [hg2]
      have hsecond : (Init env d1 (Init env disk prev).1).1 =
          insertList (insertList [] (env.urls.map urlEntries).flatten)
            d1.hwEntries := by
        simp [Init, clearGraph, h2nd]
      rw [hsecond, hg1]
      rcases installBuiltins_hwEntries env.builtins disk with ⟨ex, hex⟩
      rw [hib] at hex
      rw [hex]
      exact lookupG_reload (insertList [] (env.urls.map urlEntries).flatten)
        disk.hwEntries ex k
  · have hg2 : (Init env disk prev).2 = d1 := by
      simp [Init, hib]
    rw [hg2]
    simp [Init, h2nd]
  · have hnil : (keysOf (insertList [] (env.urls.map urlEntries).flatten)).Nodup :=
      nodup_keysOf_insertList _ [] (by simp [keysOf])
    rcases ch with _ | _
    · have hg1 : (Init env disk prev).1 =
          insertList (insertList [] (env.urls.map urlEntries).flatten)
            disk.hwEntries := by
        simp [Init, clearGraph, hib]
      rw [hg1]
      exact nodup_keysOf_insertList _ _ hnil
    · have hg1 : (Init env disk prev).1 =
          insertList (insertList (insertList []
            (env.urls.map urlEntries).flatten) disk.hwEntries) d1.hwEntries := by
        simp [Init, clearGraph, hib]
      rw [hg1]
      exact nodup_keysOf_insertList _ _ (nodup_keysOf_insertList _ _ hnil)

end InitModel

namespace UpgradeModel

/-- Errors returned by `Upgrade` (`commands/instances.go`). -/
inductive UpgErr
  | configFailed
  | invalidInstance
  | failedDownload
  | failedLibraryInstall
  | notFound
  | failedInstall
deriving DecidableEq, Repr

/-- Observable events of one `Upgrade` call, in emission order: progress
callbacks sent to the task/download sink and the effectful actions the
orchestrator performs. -/
inductive UEvent
  /-- taskCB "Downloading <library>" -/
  | libDownloadingMsg (lid : Nat)
  /-- the library archive download is attempted -/
  | libDownload (lid : Nat)
  /-- taskCB "Installing <library>" -/
  | libInstallingMsg (lid : Nat)
  /-- taskCB "Already installed <library>" -/
  | libAlreadyMsg (lid : Nat)
  /-- taskCB "Replacing <old> with <new>" -/
  | libReplacingMsg (lid : Nat)
  /-- the library install is attempted -/
  | libInstall (lid : Nat)
  /-- taskCB "Installed <library>" -/
  | libInstalledMsg (lid : Nat)
  /-- taskCB "Downloading <platform>" -/
  | platDownloadingMsg (pid : Nat)
  /-- taskCB "Tool <tool> already installed" -/
  | toolAlreadyMsg (tid : Nat)
  /-- `DownloadToolRelease` is attempted -/
  | toolDownload (tid : Nat)
  /-- taskCB "Error downloading tool <tool>" -/
  | toolDownloadErrMsg (tid : Nat)
  /-- the platform archive download is attempted -/
  | platDownload (pid : Nat)
  /-- taskCB "Updating platform <platform>" -/
  | updatingMsg (pid : Nat)
  /-- `InstallToolRelease` is attempted -/
  | toolInstall (tid : Nat)
  /-- taskCB "Error installing tool <tool>" -/
  | toolInstallErrMsg (tid : Nat)
  /-- `pm.InstallPlatform(latest)` is attempted -/
  | platInstall (pid : Nat)
  /-- taskCB "Error installing platform <platform>" -/
  | platInstallErrMsg (pid : Nat)
  /-- `pm.UninstallPlatform(installedRelease)` is attempted -/
  | uninstallOld (pid : Nat)
  /-- taskCB "Error upgrading platform: <err>" -/
  | upgradeErrMsg (pid : Nat)
  /-- rollback `pm.UninstallPlatform(latest)` is attempted -/
  | rollback (pid : Nat)
  /-- taskCB "Error rolling-back changes: <err>" -/
  | rollbackErrMsg (pid : Nat)
  /-- taskCB "Uninstalling <tool>: tool is no more required" -/
  | toolUninstallMsg (tid : Nat)
  /-- `pm.UninstallTool` is attempted -/
  | toolUninstall (tid : Nat)
  /-- taskCB "<tool> uninstalled" -/
  | toolUninstalledMsg (tid : Nat)
  /-- taskCB "Configuring platform" -/
  | configuringMsg (pid : Nat)
  /-- `pm.RunPostInstallScript(latest)` is attempted -/
  | postInstall (pid : Nat)
  /-- taskCB "WARNING: cannot run post install" -/
  | postInstallWarnMsg (pid : Nat)
  /-- taskCB "Skipping platform configuration" -/
  | skipConfigMsg (pid : Nat)
deriving DecidableEq, Repr

/-- A step result: the events emitted so far and `none` on success or the
error `Upgrade` returns. -/
abbrev StepResult := List UEvent × Option UpgErr

/-- Sequencing with the source's early-return discipline: once a step
returns an error, no later step runs (no later event is emitted). -/
def andThen (a b : StepResult) : StepResult :=
  match a.2 with
  | some e => (a.1, some e)
  | none => (a.1 ++ b.1, b.2)

/-- Run a uniform step over a list of items, returning on the first
error. -/
def runSeq (f : α → StepResult) : List α → StepResult
  | [] => ([], none)
  | x :: xs => andThen (f x) (runSeq f xs)

/-- Outcome of `lm.InstallPrerequisiteCheck` for one library. -/
inductive PrereqResult
  /-- no error; `libReplaced` non-nil iff `replacing` -/
  | ok (replacing : Bool)
  /-- `ErrAlreadyInstalled` -/
  | alreadyInstalled
  /-- any other error -/
  | err
deriving DecidableEq, Repr

/-- One entry of the `lm.Libraries` iteration of `Upgrade`: location,
whether `FindLibraryUpdate` returns an available update, and the
outcomes of the per-library steps. -/
structure LibSpec where
  lid : Nat
  isUser : Bool
  hasUpdate : Bool
  downloadErr : Bool
  prereq : PrereqResult
  installErr : Bool
deriving DecidableEq, Repr

/-- The per-library body of the `Upgrade` libraries loop
(`commands/instances.go`): non-user or up-to-date libraries are skipped;
a download failure returns `FailedDownload`; `ErrAlreadyInstalled` is a
progress note and a skip; any other prerequisite error or an install
error returns `FailedLibraryInstall`. -/
def upgradeLib (l : LibSpec) : StepResult :=
  if l.isUser = false then ([], none)
  else if l.hasUpdate = false then ([], none)
  else if l.downloadErr then
    ([.libDownloadingMsg l.lid, .libDownload l.lid], some .failedDownload)
  else
    andThen ([.libDownloadingMsg l.lid, .libDownload l.lid,
        .libInstallingMsg l.lid], none) <|
      match l.prereq with
      | .alreadyInstalled => ([.libAlreadyMsg l.lid], none)
      | .err => ([], some .failedLibraryInstall)
      | .ok replacing =>
        let rep : List UEvent :=
          if replacing then [.libReplacingMsg l.lid] else []
        if l.installErr then
          (rep ++ [.libInstall l.lid], some .failedLibraryInstall)
        else
          (rep ++ [.libInstall l.lid, .libInstalledMsg l.lid], none)

/-- A tool dependency of the latest platform release: identity, whether
`IsInstalled` already holds, and the outcomes of its download/install
steps when attempted. -/
structure ToolSpec where
  id : Nat
  isInstalled : Bool
  downloadErr : Bool
  installErr : Bool
deriving DecidableEq, Repr

/-- A tool dependency of the currently installed (old) release, as seen
by the garbage-collection loop: identity, the result of
`pm.IsToolRequired` after the platform switch, and whether
`pm.UninstallTool` fails when attempted. -/
structure OldToolSpec where
  id : Nat
  required : Bool
  uninstallErr : Bool
deriving DecidableEq, Repr

/-- One entry of the platform iteration of `Upgrade`: whether an
installed release and a newer latest release exist, the dependency
lookups' outcomes, the tools of both releases, and the outcomes of the
per-platform steps. -/
structure PlatformSpec where
  pid : Nat
  hasInstalled : Bool
  hasUpdate : Bool
  depsOldErr : Bool
  oldTools : List OldToolSpec
  depsNewErr : Bool
  newTools : List ToolSpec
  platDownloadErr : Bool
  platInstallErr : Bool
  uninstallOldErr : Bool
  rollbackErr : Bool
  postInstallErr : Bool
deriving DecidableEq, Repr

/-- The tools of the latest release that are not yet installed
(`toolsToInstall` in the source). -/
def toolsToInstall (p : PlatformSpec) : List ToolSpec :=
  p.newTools.filter (fun t => t.isInstalled = false)

/-- The "Tool already installed" progress notes emitted while
partitioning the latest release's tools. -/
def partitionMsgs (p : PlatformSpec) : List UEvent :=
  p.newTools.filterMap
    (fun t => if t.isInstalled then some (UEvent.toolAlreadyMsg t.id) else none)

/-- The tool-download loop: each tool of `toolsToInstall` is downloaded;
a failure emits the error note and returns `FailedDownload`. -/
def downloadTools : List ToolSpec → StepResult
  | [] => ([], none)
  | t :: ts =>
    if t.downloadErr then
      ([.toolDownload t.id, .toolDownloadErrMsg t.id], some .failedDownload)
    else
      andThen ([.toolDownload t.id], none) (downloadTools ts)

/-- The tool-install loop: each tool of `toolsToInstall` is installed; a
failure emits the error note and returns `FailedInstall`. -/
def installTools : List ToolSpec → StepResult
  | [] => ([], none)
  | t :: ts =>
    if t.installErr then
      ([.toolInstall t.id, .toolInstallErrMsg t.id], some .failedInstall)
    else
      andThen ([.toolInstall t.id], none) (installTools ts)

/-- The platform-archive download step. -/
def platDownloadStep (p : PlatformSpec) : StepResult :=
  if p.platDownloadErr then ([.platDownload p.pid], some .failedDownload)
  else ([.platDownload p.pid], none)

/-- The platform install step. -/
def platInstallStep (p : PlatformSpec) : StepResult :=
  if p.platInstallErr then
    ([.platInstall p.pid, .platInstallErrMsg p.pid], some .failedInstall)
  else ([.platInstall p.pid], none)

/-- The uninstall-of-the-old-release step with its rollback: an uninstall
failure is reported to the sink and triggers a rollback uninstall of the
just-installed release; only a rollback failure makes the step (and the
call) fail. -/
def uninstallOldStep (p : PlatformSpec) : StepResult :=
  if p.uninstallOldErr = false then ([.uninstallOld p.pid], none)
  else if p.rollbackErr then
    ([.uninstallOld p.pid, .upgradeErrMsg p.pid, .rollback p.pid,
      .rollbackErrMsg p.pid], some .failedInstall)
  else
    ([.uninstallOld p.pid, .upgradeErrMsg p.pid, .rollback p.pid], none)

/-- The unused-tool garbage-collection loop over the old release's
dependencies: a still-required tool is skipped; otherwise the tool is
uninstalled; an uninstall failure returns `FailedInstall` (logged, no
sink message), aborting the loop. -/
def cleanupTools : List OldToolSpec → StepResult
  | [] => ([], none)
  | t :: ts =>
    if t.required then cleanupTools ts
    else if t.uninstallErr then
      ([.toolUninstallMsg t.id, .toolUninstall t.id], some .failedInstall)
    else
      andThen ([.toolUninstallMsg t.id, .toolUninstall t.id,
        .toolUninstalledMsg t.id], none) (cleanupTools ts)

/-- The post-install step: skipped on request; a hook failure is a
warning only. -/
def postInstallStep (skipPostInstall : Bool) (p : PlatformSpec) : StepResult :=
  if skipPostInstall then ([.skipConfigMsg p.pid], none)
  else if p.postInstallErr then
    ([.configuringMsg p.pid, .postInstall p.pid, .postInstallWarnMsg p.pid], none)
  else ([.configuringMsg p.pid, .postInstall p.pid], none)

/-- The per-platform body of the `Upgrade` platform loop
(`commands/instances.go`): skip when nothing is installed or no newer
release exists; resolve old and new dependencies (`NotFound` on error);
partition the new tools; download the missing tools, then the platform;
install the missing tools, then the platform; uninstall the old release
with rollback; garbage-collect unused tools; run the post-install
hook. -/
def upgradePlatform (skipPostInstall : Bool) (p : PlatformSpec) : StepResult :=
  if p.hasInstalled = false then ([], none)
  else if p.hasUpdate = false then ([], none)
  else if p.depsOldErr then ([], some .notFound)
  else if p.depsNewErr then ([.platDownloadingMsg p.pid], some .notFound)
  else
    andThen ([.platDownloadingMsg p.pid] ++ partitionMsgs p, none) <|
    andThen (downloadTools (toolsToInstall p)) <|
    andThen (platDownloadStep p) <|
    andThen ([.updatingMsg p.pid], none) <|
    andThen (installTools (toolsToInstall p)) <|
    andThen (platInstallStep p) <|
    andThen (uninstallOldStep p) <|
    andThen (cleanupTools p.oldTools) <|
    postInstallStep skipPostInstall p

/-- One `Upgrade` request: the outcome of `GetDownloaderConfig`, the nil
checks of the library and package managers, the libraries and platforms
the managers enumerate, and the `SkipPostInstall` flag. -/
structure UpgradeReq where
  configErr : Bool
  lmNil : Bool
  libs : List LibSpec
  pmNil : Bool
  platforms : List PlatformSpec
  skipPostInstall : Bool
deriving DecidableEq, Repr

/-- Shallow embedding of `Upgrade` (`commands/instances.go`): downloader
config, library-manager lookup, the libraries loop, package-manager
lookup, then the platforms loop — every loop returning on its first
error. -/
def Upgrade (req : UpgradeReq) : StepResult :=
  if req.configErr then ([], some .configFailed)
  else if req.lmNil then ([], some .invalidInstance)
  else
    andThen (runSeq upgradeLib req.libs) <|
      if req.pmNil then ([], some .invalidInstance)
      else runSeq (upgradePlatform req.skipPostInstall) req.platforms

end UpgradeModel

namespace UpgradeModel

/-- Download actions (network transfers of tool or platform archives). -/
def isDownloadEvent : UEvent → Bool
  | .toolDownload _ => true
  | .platDownload _ => true
  | .libDownload _ => true
  | _ => false

/-- Install actions (tool, platform or library installs). -/
def isInstallEvent : UEvent → Bool
  | .toolInstall _ => true
  | .platInstall _ => true
  | .libInstall _ => true
  | _ => false

lemma andThen_none {a : StepResult} (b : StepResult) (h : a.2 = none) :
    andThen a b = (a.1 ++ b.1, b.2) := by
  simp [andThen, h]

lemma andThen_some {a : StepResult} (b : StepResult) {e : UpgErr}
    (h : a.2 = some e) : andThen a b = (a.1, some e) := by
  simp [andThen, h]

lemma andThen_assoc (a b c : StepResult) :
    andThen (andThen a b) c = andThen a (andThen b c) := by
  rcases a with ⟨ea, ra⟩
  rcases b with ⟨eb, rb⟩
  rcases ra with _ | xa
  · rcases rb with _ | xb
    · simp [andThen, List.append_assoc]
    · simp [andThen]
  · simp [andThen]

lemma mem_andThen {x : UEvent} {a b : StepResult}
    (h : x ∈ (andThen a b).1) : x ∈ a.1 ∨ x ∈ b.1 := by
  rcases ha : a.2 with _ | e
  · rw [andThen_none b ha] at h
    exact List.mem_append.mp h
  · rw [andThen_some b ha] at h
    exact Or.inl h

lemma events_andThen_cases (a b : StepResult) :
    (andThen a b).1 = a.1 ∨ (andThen a b).1 = a.1 ++ b.1 := by
  rcases ha : a.2 with _ | e
  · exact Or.inr (by rw [andThen_none b ha])
  · exact Or.inl (by rw [andThen_some b ha])

lemma downloadTools_ok (ts : List ToolSpec)
    (h : ∀ t ∈ ts, t.downloadErr = false) :
    downloadTools ts = (ts.map (fun t => UEvent.toolDownload t.id), none) := by
  induction ts with
  | nil => rfl
  | cons t ts ih =>
    have ht := h t (List.mem_cons_self t ts)
    rw [downloadTools, if_neg (by simp [ht]),
      ih fun u hu => h u (List.mem_cons_of_mem t hu), andThen_none _ rfl]
    simp

lemma installTools_ok (ts : List ToolSpec)
    (h : ∀ t ∈ ts, t.installErr = false) :
    installTools ts = (ts.map (fun t => UEvent.toolInstall t.id), none) := by
  induction ts with
  | nil => rfl
  | cons t ts ih =>
    have ht := h t (List.mem_cons_self t ts)
    rw [installTools, if_neg (by simp [ht]),
      ih fun u hu => h u (List.mem_cons_of_mem t hu), andThen_none _ rfl]
    simp

lemma no_install_in_downloadTools (ts : List ToolSpec) :
    ∀ e ∈ (downloadTools ts).1, isInstallEvent e = false := by
  induction ts with
  | nil => intro e he; simp [downloadTools] at he
  | cons t ts ih =>
    intro e he
    rw [downloadTools] at he
    by_cases hd : t.downloadErr
    · rw [if_pos hd] at he
      fin_cases he <;> rfl
    · rw [if_neg hd] at he
      rcases mem_andThen he with he' | he'
      · fin_cases he' <;> rfl
      · exact ih e he'

lemma no_download_in_installTools (ts : List ToolSpec) :
    ∀ e ∈ (installTools ts).1, isDownloadEvent e = false := by
  induction ts with
  | nil => intro e he; simp [installTools] at he
  | cons t ts ih =>
    intro e he
    rw [installTools] at he
    by_cases hd : t.installErr
    · rw [if_pos hd] at he
      fin_cases he <;> rfl
    · rw [if_neg hd] at he
      rcases mem_andThen he with he' | he'
      · fin_cases he' <;> rfl
      · exact ih e he'

lemma no_download_in_cleanupTools (ts : List OldToolSpec) :
    ∀ e ∈ (cleanupTools ts).1, isDownloadEvent e = false := by
  induction ts with
  | nil => intro e he; simp [cleanupTools] at he
  | cons t ts ih =>
    intro e he
    rw [cleanupTools] at he
    by_cases hr : t.required
    · rw [if_pos hr] at he
      exact ih e he
    · rw [if_neg hr] at he
      by_cases hu : t.uninstallErr
      · rw [if_pos hu] at he
        fin_cases he <;> rfl
      · rw [if_neg hu] at he
        rcases mem_andThen he with he' | he'
        · fin_cases he' <;> rfl
        · exact ih e he'

lemma no_install_in_partitionMsgs (p : PlatformSpec) :
    ∀ e ∈ partitionMsgs p, isInstallEvent e = false := by
  intro e he
  rcases List.mem_filterMap.mp he with ⟨t, _, ht⟩
  by_cases hi : t.isInstalled
  · rw [if_pos hi] at ht
    injection ht with ht
    subst ht
    rfl
  · rw [if_neg hi] at ht
    exact Option.noConfusion ht

lemma no_download_in_uninstallOldStep (p : PlatformSpec) :
    ∀ e ∈ (uninstallOldStep p).1, isDownloadEvent e = false := by
  intro e he
  rw [uninstallOldStep] at he
  by_cases h1 : p.uninstallOldErr = false
  · rw [if_pos h1] at he
    fin_cases he <;> rfl
  · rw [if_neg h1] at he
    by_cases h2 : p.rollbackErr
    · rw [if_pos h2] at he
      fin_cases he <;> rfl
    · rw [if_neg h2] at he
      fin_cases he <;> rfl

lemma no_download_in_postInstallStep (skip : Bool) (p : PlatformSpec) :
    ∀ e ∈ (postInstallStep skip p).1, isDownloadEvent e = false := by
  intro e he
  rw [postInstallStep] at he
  by_cases h1 : skip
  · rw [if_pos h1] at he
    fin_cases he <;> rfl
  · rw [if_neg h1] at he
    by_cases h2 : p.postInstallErr
    · rw [if_pos h2] at he
      fin_cases he <;> rfl
    · rw [if_neg h2] at he
      fin_cases he <;> rfl

lemma no_download_in_platInstallStep (p : PlatformSpec) :
    ∀ e ∈ (platInstallStep p).1, isDownloadEvent e = false := by
  intro e he
  rw [platInstallStep] at he
  by_cases h1 : p.platInstallErr
  · rw [if_pos h1] at he
    fin_cases he <;> rfl
  · rw [if_neg h1] at he
    fin_cases he <;> rfl

/-- C8: within one platform's upgrade transaction, all downloads precede
all installs: the emitted event list splits into a prefix with no
install action (it holds the tool and platform downloads) followed by a
suffix with no download action, so a download failure never leaves a
partially installed tool set for that platform. -/
theorem upgrade_platform_downloads_before_installs (skip : Bool)
    (p : PlatformSpec) :
    ∃ a b, (upgradePlatform skip p).1 = a ++ b ∧
      (∀ e ∈ a, isInstallEvent e = false) ∧
      (∀ e ∈ b, isDownloadEvent e = false) := by
  rw [upgradePlatform]
  by_cases h1 : p.hasInstalled = false
  · exact ⟨[], [], by simp [h1], by simp, by simp⟩
  rw [if_neg h1]
  by_cases h2 : p.hasUpdate = false
  · exact ⟨[], [], by simp [h2], by simp, by simp⟩
  rw [if_neg h2]
  by_cases h3 : p.depsOldErr
  · exact ⟨[], [], by simp [h3], by simp, by simp⟩
  rw [if_neg h3]
  by_cases h4 : p.depsNewErr
  · refine ⟨[.platDownloadingMsg p.pid], [], by simp [h4], ?_, by simp⟩
    intro e he
    fin_cases he <;> rfl
  rw [if_neg h4]
  rw [← andThen_assoc, ← andThen_assoc]
  set A := andThen (andThen ([UEvent.platDownloadingMsg p.pid] ++ partitionMsgs p,
    (none : Option UpgErr)) (downloadTools (toolsToInstall p))) (platDownloadStep p) with hA
  set B := andThen ([UEvent.updatingMsg p.pid], (none : Option UpgErr)) <|
    andThen (installTools (toolsToInstall p)) <|
    andThen (platInstallStep p) <|
    andThen (uninstallOldStep p) <|
    andThen (cleanupTools p.oldTools) <|
    postInstallStep skip p with hB
  have hAno : ∀ e ∈ A.1, isInstallEvent e = false := by
    intro e he
    rcases mem_andThen he with he' | he'
    · rcases mem_andThen he' with he'' | he''
      · rcases List.mem_append.mp he'' with h | h
        · fin_cases h
          rfl
        · exact no_install_in_partitionMsgs p e h
      · exact no_install_in_downloadTools (toolsToInstall p) e he''
    · rw [platDownloadStep] at he'
      by_cases hpd : p.platDownloadErr
      · rw [if_pos hpd] at he'
        fin_cases he' <;> rfl
      · rw [if_neg hpd] at he'
        fin_cases he' <;> rfl
  have hBno : ∀ e ∈ B.1, isDownloadEvent e = false := by
    intro e he
    rcases mem_andThen he with he' | he'
    · fin_cases he' <;> rfl
    rcases mem_andThen he' with he'' | he''
    · exact no_download_in_installTools (toolsToInstall p) e he''
    rcases mem_andThen he'' with he3 | he3
    · exact no_download_in_platInstallStep p e he3
    rcases mem_andThen he3 with he4 | he4
    · exact no_download_in_uninstallOldStep p e he4
    rcases mem_andThen he4 with he5 | he5
    · exact no_download_in_cleanupTools p.oldTools e he5
    · exact no_download_in_postInstallStep skip p e he5
  rcases events_andThen_cases A B with hsplit | hsplit
  · exact ⟨A.1, [], by rw [hsplit, List.append_nil], hAno, by simp⟩
  · exact ⟨A.1, B.1, hsplit, hAno, hBno⟩

lemma cleanupTools_ok (ts : List OldToolSpec)
    (h : ∀ u ∈ ts, u.required = true ∨ u.uninstallErr = false) :
    (cleanupTools ts).2 = none := by
  induction ts with
  | nil => rfl
  | cons t ts ih =>
    have hrest := ih fun u hu => h u (List.mem_cons_of_mem t hu)
    rcases h t (List.mem_cons_self t ts) with ht | ht
    · rw [cleanupTools, if_pos ht]
      exact hrest
    · by_cases hr : t.required
      · rw [cleanupTools, if_pos hr]
        exact hrest
      · rw [cleanupTools, if_neg hr, if_neg (by simp [ht]),
          andThen_none _ rfl]
        exact hrest

lemma cleanupTools_cons (t : OldToolSpec) (ts : List OldToolSpec) :
    cleanupTools (t :: ts) =
      if t.required then cleanupTools ts
      else if t.uninstallErr then
        ([.toolUninstallMsg t.id, .toolUninstall t.id], some .failedInstall)
      else
        andThen ([.toolUninstallMsg t.id, .toolUninstall t.id,
          .toolUninstalledMsg t.id], none) (cleanupTools ts) := rfl

lemma cleanupTools_fail (pre post : List OldToolSpec) (t : OldToolSpec)
    (hpre : ∀ u ∈ pre, u.required = true ∨ u.uninstallErr = false)
    (ht1 : t.required = false) (ht2 : t.uninstallErr = true) :
    cleanupTools (pre ++ t :: post) =
      ((cleanupTools pre).1 ++
        [UEvent.toolUninstallMsg t.id, UEvent.toolUninstall t.id],
       some .failedInstall) := by
  induction pre with
  | nil =>
    simp only [List.nil_append]
    rw [cleanupTools_cons, if_neg (by simp [ht1]), if_pos ht2]
    rfl
  | cons u pre ih =>
    have hrest := ih fun v hv => hpre v (List.mem_cons_of_mem u hv)
    by_cases hr : u.required
    · rw [List.cons_append, cleanupTools_cons, if_pos hr, hrest,
        cleanupTools_cons, if_pos hr]
    · have hu : u.uninstallErr = false := by
        rcases hpre u (List.mem_cons_self u pre) with hu' | hu'
        · exact absurd hu' hr
        · exact hu'
      rw [List.cons_append, cleanupTools_cons, if_neg hr,
        if_neg (by simp [hu]), hrest, andThen_none _ rfl,
        cleanupTools_cons, if_neg hr, if_neg (by simp [hu]),
        andThen_none _ rfl]
      simp [List.append_assoc]

lemma upgradePlatform_run (skip : Bool) (p : PlatformSpec)
    (h1 : p.hasInstalled = true) (h2 : p.hasUpdate = true)
    (h3 : p.depsOldErr = false) (h4 : p.depsNewErr = false)
    (hd : ∀ t ∈ toolsToInstall p, t.downloadErr = false)
    (hi : ∀ t ∈ toolsToInstall p, t.installErr = false)
    (h5 : p.platDownloadErr = false) (h6 : p.platInstallErr = false) :
    upgradePlatform skip p =
      ((UEvent.platDownloadingMsg p.pid :: (partitionMsgs p ++
        ((toolsToInstall p).map (fun t => UEvent.toolDownload t.id) ++
        (UEvent.platDownload p.pid :: UEvent.updatingMsg p.pid ::
        ((toolsToInstall p).map (fun t => UEvent.toolInstall t.id) ++
        [UEvent.platInstall p.pid]))))) ++
        (andThen (uninstallOldStep p)
          (andThen (cleanupTools p.oldTools) (postInstallStep skip p))).1,
       (andThen (uninstallOldStep p)
          (andThen (cleanupTools p.oldTools) (postInstallStep skip p))).2) := by
  rw [upgradePlatform, if_neg (by simp [h1]), if_neg (by simp [h2]),
    if_neg (by simp [h3]), if_neg (by simp [h4]),
    downloadTools_ok _ hd, installTools_ok _ hi]
  rw [show platDownloadStep p = ([UEvent.platDownload p.pid], none) from by
    simp [platDownloadStep, h5]]
  rw [show platInstallStep p = ([UEvent.platInstall p.pid], none) from by
    simp [platInstallStep, h6]]
  rw [andThen_none _ rfl, andThen_none _ rfl, andThen_none _ rfl,
    andThen_none _ rfl, andThen_none _ rfl, andThen_none _ rfl]
  simp [List.append_assoc]

/-- C9: in `Upgrade`, when uninstalling the previously installed platform
release fails but the rollback uninstall of the just-installed release
succeeds, the call returns no error: the uninstall failure is reported
only through the progress sink (the "Error upgrading platform" task
message), and the transaction proceeds to the unused-tool cleanup and
the post-install phase — running the post-install hook against the new
release the rollback just removed — and completes successfully. -/
theorem upgrade_uninstall_failure_swallowed_after_rollback (p : PlatformSpec)
    (h1 : p.hasInstalled = true) (h2 : p.hasUpdate = true)
    (h3 : p.depsOldErr = false) (h4 : p.depsNewErr = false)
    (hd : ∀ t ∈ toolsToInstall p, t.downloadErr = false)
    (hi : ∀ t ∈ toolsToInstall p, t.installErr = false)
    (h5 : p.platDownloadErr = false) (h6 : p.platInstallErr = false)
    (h7 : p.uninstallOldErr = true) (h8 : p.rollbackErr = false)
    (h9 : ∀ u ∈ p.oldTools, u.required = true ∨ u.uninstallErr = false)
    (h10 : p.postInstallErr = false) :
    (upgradePlatform false p).2 = none ∧
    (Upgrade ⟨false, false, [], false, [p], false⟩).2 = none ∧
    UEvent.upgradeErrMsg p.pid ∈ (upgradePlatform false p).1 ∧
    UEvent.rollback p.pid ∈ (upgradePlatform false p).1 ∧
    UEvent.postInstall p.pid ∈ (upgradePlatform false p).1 := by
  have hT : uninstallOldStep p =
      ([UEvent.uninstallOld p.pid, UEvent.upgradeErrMsg p.pid,
        UEvent.rollback p.pid], none) := by
    simp [uninstallOldStep, h7, h8]
  have hP : postInstallStep false p =
      ([UEvent.configuringMsg p.pid, UEvent.postInstall p.pid], none) := by
    simp [postInstallStep, h10]
  have hC := cleanupTools_ok p.oldTools h9
  have htail : andThen (uninstallOldStep p)
      (andThen (cleanupTools p.oldTools) (postInstallStep false p)) =
      ([UEvent.uninstallOld p.pid, UEvent.upgradeErrMsg p.pid,
        UEvent.rollback p.pid] ++ ((cleanupTools p.oldTools).1 ++
        [UEvent.configuringMsg p.pid, UEvent.postInstall p.pid]), none) := by
    rw [hP, andThen_none _ hC, hT, andThen_none _ rfl]
  have hrun := upgradePlatform_run false p h1 h2 h3 h4 hd hi h5 h6
  rw [htail] at hrun
  refine ⟨by rw [hrun], ?_, ?_, ?_, ?_⟩
  · show (andThen (runSeq upgradeLib [])
      (runSeq (upgradePlatform false) [p])).2 = none
    rw [show runSeq upgradeLib [] = ([], none) from rfl, andThen_none _ rfl]
    show (runSeq (upgradePlatform false) [p]).2 = none
    rw [runSeq, hrun, andThen_none _ rfl]
    rfl
  · rw [hrun]
    simp
  · rw [hrun]
    simp
  · rw [hrun]
    simp

/-- Witness for `upgrade_uninstall_failure_swallowed_after_rollback` at a
concrete platform: one fresh tool to install, one old tool to collect,
failing old-release uninstall, succeeding rollback. -/
theorem upgrade_uninstall_failure_swallowed_after_rollback_witness :
    (upgradePlatform false ⟨3, true, true, false, [⟨4, false, false⟩],
      false, [⟨5, false, false, false⟩], false, false, true, false,
      false⟩).2 = none ∧
    (Upgrade ⟨false, false, [], false, [⟨3, true, true, false,
      [⟨4, false, false⟩], false, [⟨5, false, false, false⟩], false,
      false, true, false, false⟩], false⟩).2 = none ∧
    UEvent.postInstall 3 ∈ (upgradePlatform false ⟨3, true, true, false,
      [⟨4, false, false⟩], false, [⟨5, false, false, false⟩], false,
      false, true, false, false⟩).1 := by
  have h := upgrade_uninstall_failure_swallowed_after_rollback
    ⟨3, true, true, false, [⟨4, false, false⟩], false,
      [⟨5, false, false, false⟩], false, false, true, false, false⟩
    rfl rfl rfl rfl (by decide) (by decide) rfl rfl rfl rfl (by decide) rfl
  exact ⟨h.1, h.2.1, h.2.2.2.2⟩

/-- C1 counterexample: a platform whose old release depended on two tools
that both became unused — the first tool's uninstall fails.  `Upgrade`
returns a `FailedInstall` error (the claim says the call does not fail),
and the second unused tool is never processed (no "Uninstalling"
message, no uninstall attempt for it): the loop aborted. -/
theorem upgrade_tool_gc_abort_cx :
    (Upgrade ⟨false, false, [], false, [⟨7, true, true, false,
      [⟨1, false, true⟩, ⟨2, false, false⟩], false, [], false, false,
      false, false, false⟩], false⟩).2 = some .failedInstall ∧
    UEvent.toolUninstallMsg 2 ∉ (Upgrade ⟨false, false, [], false,
      [⟨7, true, true, false, [⟨1, false, true⟩, ⟨2, false, false⟩],
      false, [], false, false, false, false, false⟩], false⟩).1 ∧
    UEvent.toolUninstall 2 ∉ (Upgrade ⟨false, false, [], false,
      [⟨7, true, true, false, [⟨1, false, true⟩, ⟨2, false, false⟩],
      false, [], false, false, false, false, false⟩], false⟩).1 := by
  decide

/-- C1 amended: during the unused-tool garbage-collection phase of
`Upgrade`, a failure of a single tool's uninstall aborts the loop and
the platform's transaction: `Upgrade` returns a `FailedInstall` error,
the remaining unused tools are not processed (the event trace ends at
the failing tool's uninstall attempt), and the failure is logged rather
than reported through the progress sink. -/
theorem upgrade_tool_gc_failure_aborts (skip : Bool) (p : PlatformSpec)
    (pre post : List OldToolSpec) (t : OldToolSpec)
    (h1 : p.hasInstalled = true) (h2 : p.hasUpdate = true)
    (h3 : p.depsOldErr = false) (h4 : p.depsNewErr = false)
    (hd : ∀ u ∈ toolsToInstall p, u.downloadErr = false)
    (hi : ∀ u ∈ toolsToInstall p, u.installErr = false)
    (h5 : p.platDownloadErr = false) (h6 : p.platInstallErr = false)
    (h7 : p.uninstallOldErr = false)
    (hsplit : p.oldTools = pre ++ t :: post)
    (hpre : ∀ u ∈ pre, u.required = true ∨ u.uninstallErr = false)
    (ht1 : t.required = false) (ht2 : t.uninstallErr = true) :
    upgradePlatform skip p =
      ((UEvent.platDownloadingMsg p.pid :: (partitionMsgs p ++
        ((toolsToInstall p).map (fun u => UEvent.toolDownload u.id) ++
        (UEvent.platDownload p.pid :: UEvent.updatingMsg p.pid ::
        ((toolsToInstall p).map (fun u => UEvent.toolInstall u.id) ++
        [UEvent.platInstall p.pid]))))) ++
        (UEvent.uninstallOld p.pid :: ((cleanupTools pre).1 ++
        [UEvent.toolUninstallMsg t.id, UEvent.toolUninstall t.id])),
       some .failedInstall) ∧
    (Upgrade ⟨false, false, [], false, [p], skip⟩).2 =
      some .failedInstall := by
  have hT : uninstallOldStep p = ([UEvent.uninstallOld p.pid], none) := by
    simp [uninstallOldStep, h7]
  have hclean := cleanupTools_fail pre post t hpre ht1 ht2
  have htail : andThen (uninstallOldStep p)
      (andThen (cleanupTools p.oldTools) (postInstallStep skip p)) =
      (UEvent.uninstallOld p.pid :: ((cleanupTools pre).1 ++
        [UEvent.toolUninstallMsg t.id, UEvent.toolUninstall t.id]),
       some .failedInstall) := by
    rw [hT, hsplit, hclean, andThen_some (postInstallStep skip p) rfl,
      andThen_none _ rfl]
    rfl
  have hrun := upgradePlatform_run skip p h1 h2 h3 h4 hd hi h5 h6
  rw [htail] at hrun
  refine ⟨hrun, ?_⟩
  show (andThen (runSeq upgradeLib [])
    (runSeq (upgradePlatform skip) [p])).2 = some .failedInstall
  rw [show runSeq upgradeLib [] = ([], none) from rfl, andThen_none _ rfl]
  show (runSeq (upgradePlatform skip) [p]).2 = some .failedInstall
  rw [runSeq, hrun, andThen_some _ rfl]

/-- Witness for `upgrade_tool_gc_failure_aborts` at a concrete platform
with two unused old tools, the first of which fails to uninstall. -/
theorem upgrade_tool_gc_failure_aborts_witness :
    upgradePlatform false ⟨7, true, true, false,
      [⟨1, false, true⟩, ⟨2, false, false⟩], false, [], false, false,
      false, false, false⟩ =
      ([UEvent.platDownloadingMsg 7, UEvent.platDownload 7,
        UEvent.updatingMsg 7, UEvent.platInstall 7, UEvent.uninstallOld 7,
        UEvent.toolUninstallMsg 1, UEvent.toolUninstall 1],
       some .failedInstall) := by
  have h := (upgrade_tool_gc_failure_aborts false
    ⟨7, true, true, false, [⟨1, false, true⟩, ⟨2, false, false⟩],
      false, [], false, false, false, false, false⟩
    [] [⟨2, false, false⟩] ⟨1, false, true⟩
    rfl rfl rfl rfl (by decide) (by decide) rfl rfl rfl rfl
    (by decide) rfl rfl).1
  rw [h]
  decide

lemma runSeq_cons {f : α → StepResult} (x : α) (xs : List α) :
    runSeq f (x :: xs) = andThen (f x) (runSeq f xs) := rfl

lemma runSeq_all_ok {f : α → StepResult} (xs : List α)
    (h : ∀ x ∈ xs, (f x).2 = none) : (runSeq f xs).2 = none := by
  induction xs with
  | nil => rfl
  | cons x xs ih =>
    rw [runSeq_cons, andThen_none _ (h x (List.mem_cons_self x xs))]
    exact ih fun y hy => h y (List.mem_cons_of_mem x hy)

lemma runSeq_first_fail {f : α → StepResult} (xs1 : List α) (x : α)
    (xs2 : List α) {e : UpgErr} (h1 : ∀ y ∈ xs1, (f y).2 = none)
    (h2 : (f x).2 = some e) :
    runSeq f (xs1 ++ x :: xs2) =
      ((runSeq f xs1).1 ++ (f x).1, some e) := by
  induction xs1 with
  | nil =>
    simp only [List.nil_append]
    rw [runSeq_cons, andThen_some _ h2]
    rfl
  | cons y ys ih =>
    have hrest := ih fun z hz => h1 z (List.mem_cons_of_mem y hz)
    rw [List.cons_append, runSeq_cons,
      andThen_none _ (h1 y (List.mem_cons_self y ys)), hrest,
      runSeq_cons, andThen_none _ (h1 y (List.mem_cons_self y ys))]
    simp [List.append_assoc]

/-- C2 counterexample: two outdated user libraries and one outdated
platform; the first library's download fails.  `Upgrade` returns that
`FailedDownload` error immediately: the sibling library is never
downloaded and the platform transaction never starts, contradicting the
claim that the remaining targets' transactions still run. -/
theorem upgrade_sibling_abort_cx :
    (Upgrade ⟨false, false, [⟨1, true, true, true, .ok false, false⟩,
      ⟨2, true, true, false, .ok false, false⟩], false,
      [⟨9, true, true, false, [], false, [], false, false, false, false,
        false⟩], false⟩).2 = some .failedDownload ∧
    UEvent.libDownload 2 ∉ (Upgrade ⟨false, false,
      [⟨1, true, true, true, .ok false, false⟩,
       ⟨2, true, true, false, .ok false, false⟩], false,
      [⟨9, true, true, false, [], false, [], false, false, false, false,
        false⟩], false⟩).1 ∧
    UEvent.platDownload 9 ∉ (Upgrade ⟨false, false,
      [⟨1, true, true, true, .ok false, false⟩,
       ⟨2, true, true, false, .ok false, false⟩], false,
      [⟨9, true, true, false, [], false, [], false, false, false, false,
        false⟩], false⟩).1 := by
  decide

/-- C2 amended: `Upgrade` over many targets is not best-effort: the first
fatal failure in one target's transaction (a download or install error
for one library or one platform) makes the whole call return that error
immediately — the failing target's transaction is aborted and the
transactions of every later sibling library and platform are never
run (the trace ends with the failing target's events). -/
theorem upgrade_first_error_aborts_call :
    (∀ (ls1 ls2 : List LibSpec) (l : LibSpec) (plats : List PlatformSpec)
      (pmNil skip : Bool) (e : UpgErr),
      (∀ x ∈ ls1, (upgradeLib x).2 = none) → (upgradeLib l).2 = some e →
      Upgrade ⟨false, false, ls1 ++ l :: ls2, pmNil, plats, skip⟩ =
        ((runSeq upgradeLib ls1).1 ++ (upgradeLib l).1, some e)) ∧
    (∀ (libs : List LibSpec) (ps1 ps2 : List PlatformSpec)
      (p : PlatformSpec) (skip : Bool) (e : UpgErr),
      (∀ x ∈ libs, (upgradeLib x).2 = none) →
      (∀ q ∈ ps1, (upgradePlatform skip q).2 = none) →
      (upgradePlatform skip p).2 = some e →
      Upgrade ⟨false, false, libs, false, ps1 ++ p :: ps2, skip⟩ =
        ((runSeq upgradeLib libs).1 ++
          ((runSeq (upgradePlatform skip) ps1).1 ++
            (upgradePlatform skip p).1), some e)) := by
  constructor
  · intro ls1 ls2 l plats pmNil skip e h1 h2
    show andThen (runSeq upgradeLib (ls1 ++ l :: ls2)) _ = _
    rw [runSeq_first_fail ls1 l ls2 h1 h2, andThen_some _ rfl]
  · intro libs ps1 ps2 p skip e h1 h2 h3
    show andThen (runSeq upgradeLib libs)
      (runSeq (upgradePlatform skip) (ps1 ++ p :: ps2)) = _
    rw [andThen_none _ (runSeq_all_ok libs h1),
      runSeq_first_fail ps1 p ps2 h2 h3]

/-- Witness for `upgrade_first_error_aborts_call`: a concrete failing
second library after a skipped non-user one, and a concrete failing
platform after one succeeding platform. -/
theorem upgrade_first_error_aborts_call_witness :
    Upgrade ⟨false, false, [⟨0, false, false, false, .ok false, false⟩,
      ⟨1, true, true, true, .ok false, false⟩,
      ⟨2, true, true, false, .ok false, false⟩], false, [], false⟩ =
      ([UEvent.libDownloadingMsg 1, UEvent.libDownload 1],
       some .failedDownload) ∧
    (Upgrade ⟨false, false, [],
      false, [⟨8, true, true, false, [], false, [], false, false, false,
        false, false⟩, ⟨9, true, true, false, [], false, [], true, false,
        false, false, false⟩], false⟩).2 = some .failedDownload := by
  constructor
  · have h := upgrade_first_error_aborts_call.1
      [⟨0, false, false, false, .ok false, false⟩]
      [⟨2, true, true, false, .ok false, false⟩]
      ⟨1, true, true, true, .ok false, false⟩ [] false false
      .failedDownload (by decide) (by decide)
    exact h.trans (by decide)
  · have h := upgrade_first_error_aborts_call.2 []
      [⟨8, true, true, false, [], false, [], false, false, false, false,
        false⟩] []
      ⟨9, true, true, false, [], false, [], true, false, false, false,
        false⟩ false .failedDownload (by decide) (by decide) (by decide)
    exact (congrArg Prod.snd h).trans (by decide)

end UpgradeModel
